import Mathlib

/-!
Shallow embedding of `src/sensor-producer.py` (a Mi Flora BLE sensor
polling-and-publish daemon) and verification of its specification claims.

Conventions of the embedding:
* Python strings are Lean `String` / `List Char`.
* A Python statement that can raise an uncaught exception is modelled with
  `Except String`: `.error e` means the exception `e` propagates and, at module
  level, terminates the process.
* The transport layer (the miflora poller, the pub/sub publisher) is opaque:
  each attempt either raises (`false`) or populates the poller cache (`true`),
  and the publisher call either raises or returns.
-/

namespace SensorProducer

/-! ### Python string primitives used by the script -/

/-- Whitespace characters removed by Python `str.strip()` (ASCII subset; the
strings handled by this program contain no Unicode-only whitespace). -/
def pyIsSpaceChar (c : Char) : Bool :=
  c == ' ' || c == '\t' || c == '\n' || c == '\r' || c == '\x0b' || c == '\x0c'

/-- Drop the leading run of whitespace characters. -/
def stripLeading : List Char → List Char
  | [] => []
  | c :: r => if pyIsSpaceChar c then stripLeading r else c :: r

/-- Python `str.strip()`: drop leading and trailing whitespace. -/
def pyStripList (l : List Char) : List Char :=
  (stripLeading ((stripLeading l).reverse)).reverse

/-- Python `str.replace(this, that)` for a single-character needle. -/
def replaceChar (this : Char) (that : List Char) : List Char → List Char
  | [] => []
  | c :: r => (if c == this then that else [c]) ++ replaceChar this that r

/-- The replacement chain of `clean_identifier` (line 75-76), applied in source
order: first spaces to hyphens, then the seven German special characters. -/
def cleanReplace (l : List Char) : List Char :=
  replaceChar 'ß' ['s', 's']
    (replaceChar 'Ü' ['U', 'e']
      (replaceChar 'ü' ['u', 'e']
        (replaceChar 'Ö' ['O', 'e']
          (replaceChar 'ö' ['o', 'e']
            (replaceChar 'Ä' ['A', 'e']
              (replaceChar 'ä' ['a', 'e']
                (replaceChar ' ' ['-'] l)))))))

/-- An ASCII code point. -/
def isAsciiChar (c : Char) : Bool := c.toNat < 128

/-- Transliteration performed by the `unidecode` library (imported at line 15
of sensor-producer.py and applied as the last step of `clean_identifier`):
ASCII code points pass through unchanged; non-ASCII code points are replaced
by an ASCII approximation.  The table records the library's documented
mappings for the code points exercised in this development — in particular
CJK ideographs transliterate to a romanization with a trailing space
(the library documents `unidecode("北亰") == "Bei Jing "`).  Code points
outside the table are modelled by the library's fallback, the empty
replacement. -/
def unidecodeChar (c : Char) : List Char :=
  if c.toNat < 128 then [c]
  else if c == 'é' then ['e']
  else if c == 'ñ' then ['n']
  else if c == '北' then ['B', 'e', 'i', ' ']
  else if c == '亰' then ['J', 'i', 'n', 'g', ' ']
  else []

/-- `unidecode` over a whole string, character by character. -/
def unidecodeList : List Char → List Char
  | [] => []
  | c :: r => unidecodeChar c ++ unidecodeList r

/-- `clean_identifier` (lines 73-78): strip, apply the replacement chain,
transliterate with `unidecode`. -/
def clean_identifier (name : String) : String :=
  ⟨unidecodeList (cleanReplace (pyStripList name.data))⟩

/-- Space-to-hyphen on one character; `replaceChar ' ' ['-']` acts as the map
of this function (proved below). -/
def spaceHyphen (c : Char) : Char := if c == ' ' then '-' else c

/-! ### Python `str.split` on a single-character separator -/

/-- Worker for `split`: `acc` holds the current chunk, reversed. -/
def splitAux (sep : Char) : List Char → List Char → List (List Char)
  | [], acc => [acc.reverse]
  | c :: r, acc => if c == sep then acc.reverse :: splitAux sep r [] else splitAux sep r (c :: acc)

/-- Python `s.split(sep)` with a one-character separator: split on every
occurrence, empty chunks preserved. -/
def pySplitChars (sep : Char) (l : List Char) : List (List Char) :=
  splitAux sep l []

/-- `pySplitChars` repackaged on `String`. -/
def pySplit (sep : Char) (s : String) : List String :=
  (pySplitChars sep s.data).map fun l => (⟨l⟩ : String)

/-- Python tuple unpacking `a, b = L` for a two-element target: raises
`ValueError` unless the list has exactly two elements. -/
def unpack2 (L : List String) : Except String (String × String) :=
  match L with
  | [a, b] => .ok (a, b)
  | _ => .error "ValueError: unpack"

/-- Lines 133-136: `name_pretty, location_pretty = name.split('@')` when `'@'
in name`, else `(name, '')`.  A key with two or more `@` makes the unpacking
raise an uncaught `ValueError`. -/
def splitNameLocation (name : String) : Except String (String × String) :=
  if name.data.contains '@' then unpack2 (pySplit '@' name)
  else .ok (name, "")

/-! ### MAC address validation (lines 128-131) -/

/-- `[0-9A-F]`: an uppercase hexadecimal digit. -/
def hexUDigit (c : Char) : Bool :=
  ('0' ≤ c && c ≤ '9') || ('A' ≤ c && c ≤ 'F')

/-- The shape denoted by the regex `C4:7C:8D:[0-9A-F]{2}:[0-9A-F]{2}:[0-9A-F]{2}`
on an exactly-17-character text. -/
def macPatternShape : List Char → Bool
  | [a, b, c, d, e, f, g, h, i, x1, x2, j, y1, y2, k, z1, z2] =>
    a == 'C' && b == '4' && c == ':' && d == '7' && e == 'C' && f == ':' &&
    g == '8' && h == 'D' && i == ':' &&
    hexUDigit x1 && hexUDigit x2 && j == ':' &&
    hexUDigit y1 && hexUDigit y2 && k == ':' &&
    hexUDigit z1 && hexUDigit z2
  | _ => false

/-- `re.match(pattern, mac)` as the code calls it: `re.match` anchors only at
the START of the string, so it succeeds whenever the first 17 characters have
the pattern shape, whatever follows them. -/
def reMatchVendorMac (s : String) : Bool :=
  macPatternShape (s.data.take 17)

/-- The claim's reading of the pattern: the whole string is of the shape
`C4:7C:8D:` followed by three colon-separated uppercase-hex byte pairs. -/
def macFullPattern (s : String) : Bool :=
  macPatternShape s.data

/-! ### Device registry (lines 110-166) -/

/-- Per-device statistics dictionary, line 152:
`{"count": 0, "success": 0, "failure": 0}`. -/
structure Stats where
  count : Nat
  success : Nat
  failure : Nat
deriving DecidableEq

/-- Line 152's initial value. -/
def initStats : Stats := ⟨0, 0, 0⟩

/-- The `flora` dictionary built at lines 140-156.  `firmware` is `none` when
the startup probe raised (line 157), in which case the key is never stored. -/
structure Flora where
  name_pretty : String
  mac : String
  location_clean : String
  location_pretty : String
  refresh : Nat
  stats : Stats
  firmware : Option String
deriving DecidableEq

/-- Line 119. -/
def sleep_period : Nat := 300

/-- One entry of the `[Sensors]` config section (lines 128-156): validate the
MAC with `re.match`, exiting the process on mismatch (modelled as `.error`);
split name from location; clean both identifiers; build the flora record.
`probe` gives the startup probe's outcome for a MAC: `some fw` if the initial
connection succeeded with firmware `fw`, `none` if it raised (the device is
registered either way). -/
def processSensorEntry (probe : String → Option String) (nm mac : String) :
    Except String (String × Flora) :=
  if reMatchVendorMac mac then
    match splitNameLocation nm with
    | .error e => .error e
    | .ok (name_pretty, location_pretty) =>
      .ok (clean_identifier name_pretty,
        { name_pretty := name_pretty
          mac := mac
          location_clean := clean_identifier location_pretty
          location_pretty := location_pretty
          refresh := sleep_period
          stats := initStats
          firmware := probe mac })
  else .error "SystemExit: MAC address in the wrong format"

/-- `OrderedDict` assignment `flores[name_clean] = flora`: overwrite in place
if the key exists, else append. -/
def odInsert (k : String) (v : Flora) : List (String × Flora) → List (String × Flora)
  | [] => [(k, v)]
  | (k2, v2) :: r => if k2 == k then (k, v) :: r else (k2, v2) :: odInsert k v r

/-- The registry-building loop over the config entries, in order. -/
def buildFloresAux (probe : String → Option String) (acc : List (String × Flora)) :
    List (String × String) → Except String (List (String × Flora))
  | [] => .ok acc
  | (nm, mac) :: rest =>
    match processSensorEntry probe nm mac with
    | .error e => .error e
    | .ok (k, fl) => buildFloresAux probe (odInsert k fl acc) rest

/-- Lines 127-166: build the full `flores` registry from the configured
`name -> mac` entries. -/
def buildFlores (probe : String → Option String) (entries : List (String × String)) :
    Except String (List (String × Flora)) :=
  buildFloresAux probe [] entries

/-! ### The per-device read cycle (lines 179-226) -/

/-- Line 180: `attempts = 2`. -/
def MAX_ATTEMPTS : Nat := 2

/-- The retry loop of lines 185-194: `outcome i` tells whether the i-th
`fill_cache`/`parameter_value` pair of the cycle succeeds (populating the
cache) or raises a transport error (`IOError`/`BluetoothBackendException`,
after which the cache is cleared and `attempts` decremented).  Returns whether
the loop ends with a populated cache. -/
def attemptLoop (outcome : Nat → Bool) : Nat → Nat → Bool
  | _, 0 => false
  | i, rem + 1 => if outcome i then true else attemptLoop outcome (i + 1) rem

/-- The statistics updates of one cycle: `count` is incremented before the
retry loop (line 183); afterwards exactly one of `failure` (line 197) or
`success` (line 204) is incremented, depending on whether the cache ended up
populated. -/
def cycleStats (ok : Bool) (s : Stats) : Stats :=
  let s1 : Stats := { s with count := s.count + 1 }
  if ok then { s1 with success := s1.success + 1 }
  else { s1 with failure := s1.failure + 1 }

/-- Statistics after `n` completed cycles for one device, starting from
line 152's zeros; `oks n` tells whether cycle `n` obtained a reading. -/
def runStats (oks : Nat → Bool) : Nat → Stats
  | 0 => initStats
  | n + 1 => cycleStats (oks n) (runStats oks n)

/-- Lines 179-204: clear the cache, bump `count`, run the bounded retry loop,
then bump `failure` or `success`.  Returns the updated flora record and
whether the cycle succeeded. -/
def readCyclePhase (outcome : Nat → Bool) (fl : Flora) : Flora × Bool :=
  let ok := attemptLoop outcome 0 MAX_ATTEMPTS
  ({ fl with stats := cycleStats ok fl.stats }, ok)

/-- A value stored in the `data` dictionary. -/
inductive PyVal
  | int (i : Int)
  | str (s : String)
deriving DecidableEq

/-- The keys of the `parameters` OrderedDict (lines 24-30), in order: the
miflora constants `MI_LIGHT`, `MI_TEMPERATURE`, `MI_MOISTURE`,
`MI_CONDUCTIVITY`, `MI_BATTERY`. -/
def parametersKeys : List String :=
  ["light", "temperature", "moisture", "conductivity", "battery"]

/-- Lines 206-207: `data[param] = flora['poller'].parameter_value(param)` for
every catalog key; `values` is the populated cache. -/
def extractParams (values : String → Int) : List (String × PyVal) :=
  parametersKeys.map fun p => (p, .int (values p))

/-- Lines 210-214: augment `data` with timestamp, names, mac and firmware.
`data['firmware'] = flora['firmware']` raises an uncaught `KeyError` when the
startup probe failed and the key was never stored. -/
def finishReading (values : String → Int) (ts flora_name : String) (fl : Flora) :
    Except String (List (String × PyVal)) :=
  match fl.firmware with
  | none => .error "KeyError: firmware"
  | some fw =>
    .ok (extractParams values ++
      [("timestamp", .str ts), ("name", .str flora_name),
       ("name_pretty", .str fl.name_pretty), ("mac", .str fl.mac),
       ("firmware", .str fw)])

/-- Lines 217-225: the flat comma-separated publish payload
`light,temperature,moisture,conductivity,mac,battery,timestamp`. -/
def formatMessage (values : String → Int) (mac ts : String) : String :=
  String.intercalate ","
    [toString (values "light"), toString (values "temperature"),
     toString (values "moisture"), toString (values "conductivity"),
     mac, toString (values "battery"), ts]

/-- Line 226: `publisher.publish(...)`.  The call is not wrapped in any
`try`, so a raising publisher propagates. -/
def publishCall (pubRaises : Bool) : Except String Unit :=
  if pubRaises then .error "PublishError" else .ok ()

/-- One device's full turn of the loop body (lines 179-226): read cycle, then
on success build the reading, format the payload and publish it.  The result
carries the updated flora record, the reading (if one was built) and the list
of payloads handed to the publish sink; `.error` means an uncaught exception
escapes the loop and kills the process. -/
def deviceCycle (outcome : Nat → Bool) (values : String → Int) (ts flora_name : String)
    (pubRaises : Bool) (fl : Flora) :
    Except String (Flora × Option (List (String × PyVal)) × List String) :=
  let res := readCyclePhase outcome fl
  if res.2 then
    match finishReading values ts flora_name res.1 with
    | .error e => .error e
    | .ok reading =>
      match publishCall pubRaises with
      | .error e => .error e
      | .ok _ => .ok (res.1, some reading, [formatMessage values res.1.mac ts])
  else .ok (res.1, none, [])

/-! ### The module-level name `time` (lines 4 and 10) -/

/-- A Python object as far as attribute lookup is concerned. -/
inductive PyObj
  | module (attrs : List String)
  | func
deriving DecidableEq

/-- Attribute lookup: a module exposes its attribute names; a plain function
object has none of the attributes looked up here. -/
def pyGetattr : PyObj → String → Option PyObj
  | PyObj.module attrs, a => if attrs.contains a then some PyObj.func else none
  | PyObj.func, _ => none

/-- The successive module-level bindings of the name `time`, in source order:
line 4 `import time` binds the `time` module (whose attributes include
`sleep`); line 10 `from time import time, sleep, localtime, strftime` rebinds
the same name to the `time()` function.  The later binding wins. -/
def timeNameBindings : List PyObj :=
  [PyObj.module ["time", "sleep", "localtime", "strftime", "gmtime", "monotonic"],
   PyObj.func]

/-- Evaluation of the expression `time.sleep` at line 177: look up the current
binding of `time`, then its `sleep` attribute.  A failed attribute lookup
raises `AttributeError`. -/
def timeSleepCall : Except String Unit :=
  match timeNameBindings.getLast? with
  | none => .error "NameError: time"
  | some ob =>
    match pyGetattr ob "sleep" with
    | some _ => .ok ()
    | none => .error "AttributeError: sleep"

/-- One iteration of the `while True` scheduler loop (lines 176-226): the
first statement of the body is `time.sleep(10)`; only if it returns are the
devices processed in registry order. -/
def pollingLoopIteration (outcome : Nat → Bool) (values : String → Int)
    (ts : String) (pubRaises : Bool) :
    List (String × Flora) → Except String (List (String × Flora)) := fun devs =>
  match timeSleepCall with
  | .error e => .error e
  | .ok _ =>
    let step : List (String × Flora) → Except String (List (String × Flora)) :=
      fun l => l.foldr (fun (p : String × Flora) acc =>
        match acc with
        | .error e => .error e
        | .ok r =>
          match deviceCycle outcome values ts p.1 pubRaises p.2 with
          | .error e => .error e
          | .ok (fl2, _, _) => .ok ((p.1, fl2) :: r)) (.ok [])
    step devs

/-! ### The names defined at module level (for the `--gen-openhab` branch) -/

/-- Every name bound at module scope by lines 1-166 of sensor-producer.py:
the imports of lines 3-19 (line 10 rebinding `time`), the assignments of
lines 21-127, and the loop targets and body assignments of lines 128-166.
`reporting_mode`, read at line 170, is not among them. -/
def moduleGlobalNames : List String :=
  ["ssl", "time", "sys", "re", "json", "os", "argparse",
   "sleep", "localtime", "strftime", "OrderedDict",
   "colorama_init", "Fore", "Back", "Style", "ConfigParser", "unidecode",
   "MiFloraPoller", "MI_BATTERY", "MI_CONDUCTIVITY", "MI_LIGHT",
   "MI_MOISTURE", "MI_TEMPERATURE",
   "available_backends", "BluepyBackend", "GatttoolBackend", "PygattBackend",
   "BluetoothBackendException", "sdnotify", "pubsub_v1",
   "project_name", "project_url", "parameters", "publisher", "topic_name",
   "parser", "parse_args", "sd_notifier", "print_line", "clean_identifier",
   "flores_to_openhab_items", "config_dir", "config", "used_adapter",
   "sleep_period", "miflora_cache_timeout", "flores",
   "name", "mac", "name_pretty", "location_pretty", "name_clean",
   "location_clean", "flora", "flora_poller"]

/-- Line 170: the `--gen-openhab` branch evaluates the argument expression
`reporting_mode` before calling `flores_to_openhab_items`.  A name absent
from module scope raises an uncaught `NameError`, so the process exits with a
nonzero status before generating anything. -/
def genOpenhabBranch : Except String Unit :=
  if moduleGlobalNames.contains "reporting_mode" then .ok ()
  else .error "NameError: reporting_mode"

/-! ### Concrete records used by the witnesses and counterexamples -/

/-- A registered device whose startup probe succeeded. -/
def floraA : Flora :=
  { name_pretty := "Balcony Plant"
    mac := "C4:7C:8D:01:02:03"
    location_clean := "Living-Room"
    location_pretty := "Living Room"
    refresh := sleep_period
    stats := initStats
    firmware := some "3.1.9" }

/-- A registered device whose startup probe failed: no firmware was stored. -/
def floraB : Flora :=
  { name_pretty := "Hallway Plant"
    mac := "C4:7C:8D:AA:BB:CC"
    location_clean := ""
    location_pretty := ""
    refresh := sleep_period
    stats := ⟨4, 3, 1⟩
    firmware := none }

/-- `floraA` after one failed cycle. -/
def floraAFail : Flora := { floraA with stats := ⟨1, 0, 1⟩ }

/-! ### Supporting lemmas -/

/-- If both attempts of a cycle raise, the retry loop ends with an empty
cache. -/
theorem attemptLoop_false (outcome : Nat → Bool)
    (h0 : outcome 0 = false) (h1 : outcome 1 = false) :
    attemptLoop outcome 0 MAX_ATTEMPTS = false := by
  simp [MAX_ATTEMPTS, attemptLoop, h0, h1]

/-- Looking up a key of `l` in the association list pairing each key with
`f key` finds `f key`. -/
theorem lookup_map_pair (f : String → PyVal) :
    ∀ (l : List String) (p : String), p ∈ l →
      (l.map fun q => (q, f q)).lookup p = some (f p) := by
  intro l
  induction l with
  | nil => intro p hp; cases hp
  | cons q r ih =>
    intro p hp
    by_cases hpq : p = q
    · subst hpq; simp [List.lookup]
    · rcases List.mem_cons.mp hp with hpq2 | hp2
      · exact absurd hpq2 hpq
      · simpa [List.lookup, beq_eq_false_iff_ne.mpr hpq] using ih p hp2

/-- The loop body on a cycle whose retry loop ends with an empty cache. -/
theorem deviceCycle_of_false (outcome : Nat → Bool) (values : String → Int)
    (ts nm : String) (pubRaises : Bool) (fl : Flora)
    (h : attemptLoop outcome 0 MAX_ATTEMPTS = false) :
    deviceCycle outcome values ts nm pubRaises fl =
      .ok ({ fl with stats := cycleStats false fl.stats }, none, []) := by
  simp [deviceCycle, readCyclePhase, h]

/-- The loop body on a cycle whose retry loop populated the cache. -/
theorem deviceCycle_of_true (outcome : Nat → Bool) (values : String → Int)
    (ts nm : String) (pubRaises : Bool) (fl : Flora)
    (h : attemptLoop outcome 0 MAX_ATTEMPTS = true) :
    deviceCycle outcome values ts nm pubRaises fl =
      (match finishReading values ts nm { fl with stats := cycleStats true fl.stats } with
       | .error e => .error e
       | .ok reading =>
         match publishCall pubRaises with
         | .error e => .error e
         | .ok _ =>
           .ok ({ fl with stats := cycleStats true fl.stats }, some reading,
                [formatMessage values fl.mac ts])) := by
  simp [deviceCycle, readCyclePhase, h]

/-- Whenever the loop body finishes without an uncaught exception, the new
statistics are exactly `cycleStats` of the old ones. -/
theorem deviceCycle_stats (outcome : Nat → Bool) (values : String → Int)
    (ts nm : String) (pubRaises : Bool) (fl fl2 : Flora)
    (r : Option (List (String × PyVal))) (msgs : List String)
    (hEq : deviceCycle outcome values ts nm pubRaises fl = .ok (fl2, r, msgs)) :
    fl2.stats = cycleStats (attemptLoop outcome 0 MAX_ATTEMPTS) fl.stats := by
  cases hA : attemptLoop outcome 0 MAX_ATTEMPTS with
  | false =>
    rw [deviceCycle_of_false outcome values ts nm pubRaises fl hA] at hEq
    simp only [Except.ok.injEq, Prod.mk.injEq] at hEq
    rw [← hEq.1]
  | true =>
    rw [deviceCycle_of_true outcome values ts nm pubRaises fl hA] at hEq
    rcases hF : finishReading values ts nm { fl with stats := cycleStats true fl.stats }
      with e | reading
    · rw [hF] at hEq; simp at hEq
    · rw [hF] at hEq
      cases pubRaises with
      | true => simp [publishCall] at hEq
      | false =>
        simp only [publishCall, if_neg, Bool.false_eq_true, not_false_eq_true,
          Except.ok.injEq, Prod.mk.injEq] at hEq
        rw [← hEq.1]

/-! ### C2 -/

/-- C2: if the poller raises on all `MAX_ATTEMPTS` attempts of one cycle, the
cycle ends in failure: `count` and `failure` are incremented by exactly one,
`success` is unchanged, no reading is built and nothing is handed to the
publish sink. -/
theorem all_attempts_fail_cycle (outcome : Nat → Bool) (values : String → Int)
    (ts nm : String) (pubRaises : Bool) (fl : Flora)
    (h : ∀ i, i < MAX_ATTEMPTS → outcome i = false) :
    deviceCycle outcome values ts nm pubRaises fl =
      .ok ({ fl with
              stats := ⟨fl.stats.count + 1, fl.stats.success, fl.stats.failure + 1⟩ },
           none, []) := by
  have hA := attemptLoop_false outcome (h 0 (by decide)) (h 1 (by decide))
  simp [deviceCycle, readCyclePhase, hA, cycleStats]

/-- Witness for C2: a concrete always-raising poller. -/
theorem all_attempts_fail_cycle_witness :
    deviceCycle (fun _ => false) (fun _ => 5) "2024-01-01 00:00:00"
        "Balcony-Plant" false floraA =
      .ok ({ floraA with
              stats := ⟨floraA.stats.count + 1, floraA.stats.success,
                        floraA.stats.failure + 1⟩ },
           none, []) :=
  all_attempts_fail_cycle (fun _ => false) (fun _ => 5) "2024-01-01 00:00:00"
    "Balcony-Plant" false floraA (fun _ _ => rfl)

/-! ### C3 -/

/-- C3: if the poller raises exactly `k < MAX_ATTEMPTS` times and then
succeeds within one cycle, the cycle ends in success — `count` and `success`
are incremented by exactly one, `failure` is unchanged — and the extracted
data carries a value for every key of the parameter catalog. -/
theorem retry_then_success_cycle (outcome : Nat → Bool) (values : String → Int)
    (fl : Flora) (k : Nat) (hk : k < MAX_ATTEMPTS)
    (hf : ∀ i, i < k → outcome i = false) (hs : outcome k = true) :
    readCyclePhase outcome fl =
      ({ fl with
          stats := ⟨fl.stats.count + 1, fl.stats.success + 1, fl.stats.failure⟩ },
       true) ∧
    ∀ p ∈ parametersKeys, (extractParams values).lookup p = some (.int (values p)) := by
  have hk2 : k < 2 := hk
  have hA : attemptLoop outcome 0 MAX_ATTEMPTS = true := by
    interval_cases k
    · simp [MAX_ATTEMPTS, attemptLoop, hs]
    · simp [MAX_ATTEMPTS, attemptLoop, hf 0 (by omega), hs]
  refine ⟨by simp [readCyclePhase, hA, cycleStats], ?_⟩
  intro p hp
  exact lookup_map_pair (fun q => .int (values q)) parametersKeys p hp

/-- Witness for C3: one raising attempt, then success. -/
theorem retry_then_success_cycle_witness :
    readCyclePhase (fun i => i == 1) floraA =
      ({ floraA with
          stats := ⟨floraA.stats.count + 1, floraA.stats.success + 1,
                    floraA.stats.failure⟩ },
       true) ∧
    ∀ p ∈ parametersKeys,
      (extractParams (fun _ => 21)).lookup p = some (.int 21) :=
  retry_then_success_cycle (fun i => i == 1) (fun _ => 21) floraA 1 (by decide)
    (fun i hi => by
      have hi0 : i = 0 := by omega
      subst hi0; rfl)
    rfl

/-- `split` produces one more chunk than there are separators. -/
theorem splitAux_length (sep : Char) :
    ∀ (m acc : List Char), (splitAux sep m acc).length = m.count sep + 1 := by
  intro m
  induction m with
  | nil => intro acc; simp [splitAux]
  | cons c r ih =>
    intro acc
    by_cases hc : c == sep
    · simp [splitAux, hc, ih, List.count_cons]
    · simp [splitAux, hc, ih, List.count_cons]

/-- Splitting a separator-free text yields a single chunk. -/
theorem splitAux_no_sep (sep : Char) :
    ∀ (m acc : List Char), sep ∉ m → splitAux sep m acc = [acc.reverse ++ m] := by
  intro m
  induction m with
  | nil => intro acc _; simp [splitAux]
  | cons c r ih =>
    intro acc hm
    have hc : (c == sep) = false := by
      simp only [beq_eq_false_iff_ne]
      intro hcs; exact hm (hcs ▸ List.mem_cons_self c r)
    have hr : sep ∉ r := fun hx => hm (List.mem_cons_of_mem c hx)
    simp [splitAux, hc, ih (c :: acc) hr, List.append_assoc]

/-- Splitting past the first separator occurrence. -/
theorem splitAux_first_sep (sep : Char) :
    ∀ (p q acc : List Char), sep ∉ p →
      splitAux sep (p ++ sep :: q) acc = (acc.reverse ++ p) :: splitAux sep q [] := by
  intro p
  induction p with
  | nil => intro q acc _; simp [splitAux]
  | cons c p2 ih =>
    intro q acc hp
    have hc : (c == sep) = false := by
      simp only [beq_eq_false_iff_ne]
      intro hcs; exact hp (hcs ▸ List.mem_cons_self c p2)
    have hp2 : sep ∉ p2 := fun hx => hp (List.mem_cons_of_mem c hx)
    simp [splitAux, hc, ih q (c :: acc) hp2, List.append_assoc]

/-- Tuple unpacking into two names raises unless the list has length two. -/
theorem unpack2_error (L : List String) (h : L.length ≠ 2) :
    unpack2 L = .error "ValueError: unpack" := by
  rcases L with _ | ⟨a, _ | ⟨b, _ | ⟨c, r⟩⟩⟩ <;> first
    | rfl
    | exact absurd rfl h

/-- A key with at most one `@` always splits without raising. -/
theorem splitNameLocation_of_count_le_one (nm : String)
    (h : nm.data.count '@' ≤ 1) :
    ∃ a b, splitNameLocation nm = .ok (a, b) := by
  by_cases hc : nm.data.contains '@'
  · have hmem : '@' ∈ nm.data := List.elem_iff.mp hc
    have hpos : 0 < nm.data.count '@' := List.count_pos_iff.mpr hmem
    have hone : nm.data.count '@' = 1 := by omega
    have hlen : (pySplit '@' nm).length = 2 := by
      simp [pySplit, pySplitChars, splitAux_length, hone]
    rcases hL : pySplit '@' nm with _ | ⟨a, _ | ⟨b, _ | ⟨c, r⟩⟩⟩ <;>
      rw [hL] at hlen <;> simp at hlen
    refine ⟨a, b, ?_⟩
    unfold splitNameLocation
    rw [if_pos hc, hL]
    rfl
  · refine ⟨nm, "", ?_⟩
    unfold splitNameLocation
    rw [if_neg hc]

/-- The exactly-17-character pattern only matches 17-character texts. -/
theorem macPatternShape_length (cs : List Char) (h : macPatternShape cs = true) :
    cs.length = 17 := by
  unfold macPatternShape at h
  split at h
  · rfl
  · simp at h

/-- A failed MAC validation, as the code performs it first, aborts the
entry. -/
theorem processSensorEntry_err (probe : String → Option String) (nm mac : String)
    (h : reMatchVendorMac mac = false) :
    processSensorEntry probe nm mac = .error "SystemExit: MAC address in the wrong format" := by
  simp [processSensorEntry, h]

/-- A passing MAC validation together with a well-formed key yields a
registered device. -/
theorem processSensorEntry_ok (probe : String → Option String) (nm mac : String)
    (hm : reMatchVendorMac mac = true) (hn : nm.data.count '@' ≤ 1) :
    ∃ k fl, processSensorEntry probe nm mac = .ok (k, fl) := by
  obtain ⟨a, b, hab⟩ := splitNameLocation_of_count_le_one nm hn
  refine ⟨clean_identifier a,
    { name_pretty := a
      mac := mac
      location_clean := clean_identifier b
      location_pretty := b
      refresh := sleep_period
      stats := initStats
      firmware := probe mac }, ?_⟩
  simp [processSensorEntry, hm, hab]

/-- Registry construction, from any partial accumulator, finishes without a
fatal abort exactly when every configured address passes `re.match`. -/
theorem buildFloresAux_ok_iff (probe : String → Option String) :
    ∀ (entries : List (String × String)) (acc : List (String × Flora)),
      (∀ p ∈ entries, p.1.data.count '@' ≤ 1) →
      ((∃ r, buildFloresAux probe acc entries = .ok r) ↔
        ∀ p ∈ entries, reMatchVendorMac p.2 = true) := by
  intro entries
  induction entries with
  | nil => intro acc _; simp [buildFloresAux]
  | cons e rest ih =>
    intro acc h
    obtain ⟨nm, mac⟩ := e
    by_cases hm : reMatchVendorMac mac = true
    · obtain ⟨k, fl, hok⟩ :=
        processSensorEntry_ok probe nm mac hm (h (nm, mac) (List.mem_cons_self _ _))
      rw [show buildFloresAux probe acc ((nm, mac) :: rest) =
            buildFloresAux probe (odInsert k fl acc) rest by
          simp [buildFloresAux, hok]]
      rw [ih (odInsert k fl acc) (fun p hp => h p (List.mem_cons_of_mem _ hp))]
      constructor
      · intro hrest p hp
        rcases List.mem_cons.mp hp with hpe | hp2
        · subst hpe; exact hm
        · exact hrest p hp2
      · intro hall p hp
        exact hall p (List.mem_cons_of_mem _ hp)
    · have herr := processSensorEntry_err probe nm mac (by simpa using hm)
      rw [show buildFloresAux probe acc ((nm, mac) :: rest) =
            .error "SystemExit: MAC address in the wrong format" by
          simp [buildFloresAux, herr]]
      constructor
      · intro hr; rcases hr with ⟨r, hr⟩; simp at hr
      · intro hall
        exact absurd (hall (nm, mac) (List.mem_cons_self _ _)) hm

/-! ### C4 -/

/-- Counterexample to C4: `re.match` only anchors at the start, so the
address `C4:7C:8D:AA:BB:CCZZ` — which does not match the claimed pattern
(vendor prefix plus exactly three hex byte pairs) — is nevertheless accepted
and the device registered, where the claim demands a fatal exit. -/
theorem mac_trailing_chars_accepted :
    macFullPattern "C4:7C:8D:AA:BB:CCZZ" = false ∧
    buildFlores (fun _ => none) [("plant", "C4:7C:8D:AA:BB:CCZZ")] =
      .ok [("plant",
        { name_pretty := "plant"
          mac := "C4:7C:8D:AA:BB:CCZZ"
          location_clean := ""
          location_pretty := ""
          refresh := sleep_period
          stats := initStats
          firmware := none })] := ⟨rfl, rfl⟩

/-- C4 as amended: the address check has `re.match`'s left-anchored
semantics — every address whose first 17 characters have the vendor pattern
shape is accepted (in particular every address fully matching the pattern),
and for keys with at most one `@` the registry build succeeds, before any
polling, exactly when every configured address passes this left-anchored
check; the check is the only validation that deliberately exits the
process. -/
theorem mac_validation_left_anchored :
    (∀ s : String, macFullPattern s = true → reMatchVendorMac s = true) ∧
    (∀ (probe : String → Option String) (entries : List (String × String)),
      (∀ p ∈ entries, p.1.data.count '@' ≤ 1) →
      ((∃ r, buildFlores probe entries = .ok r) ↔
        ∀ p ∈ entries, reMatchVendorMac p.2 = true)) := by
  constructor
  · intro s h
    have hlen := macPatternShape_length s.data h
    unfold reMatchVendorMac
    rw [List.take_of_length_le (by omega)]
    exact h
  · intro probe entries h
    exact buildFloresAux_ok_iff probe entries [] h

/-- Witness for the amended C4, at a concrete two-device configuration. -/
theorem mac_validation_left_anchored_witness :
    (∃ r, buildFlores (fun _ => some "2.7.0")
        [("Balcony Plant@Living Room", "C4:7C:8D:00:11:22"),
         ("Fern", "C4:7C:8D:AB:CD:EF")] = .ok r) ↔
    ∀ p ∈ [("Balcony Plant@Living Room", "C4:7C:8D:00:11:22"),
           ("Fern", "C4:7C:8D:AB:CD:EF")],
      reMatchVendorMac p.2 = true :=
  mac_validation_left_anchored.2 (fun _ => some "2.7.0") _ (by decide)

/-- Every character emitted by the transliteration table is ASCII. -/
theorem unidecodeChar_ascii (c d : Char) (h : d ∈ unidecodeChar c) :
    isAsciiChar d = true := by
  unfold unidecodeChar at h
  by_cases h1 : c.toNat < 128
  · rw [if_pos h1] at h
    simp at h
    rw [h]
    simpa [isAsciiChar] using h1
  · rw [if_neg h1] at h
    by_cases h2 : (c == 'é') = true
    · rw [if_pos h2] at h; simp at h; rw [h]; decide
    · rw [if_neg h2] at h
      by_cases h3 : (c == 'ñ') = true
      · rw [if_pos h3] at h; simp at h; rw [h]; decide
      · rw [if_neg h3] at h
        by_cases h4 : (c == '北') = true
        · rw [if_pos h4] at h
          simp at h
          rcases h with h | h | h | h <;> rw [h] <;> decide
        · rw [if_neg h4] at h
          by_cases h5 : (c == '亰') = true
          · rw [if_pos h5] at h
            simp at h
            rcases h with h | h | h | h | h <;> rw [h] <;> decide
          · rw [if_neg h5] at h
            simp at h

/-- ASCII characters pass through the transliteration unchanged. -/
theorem unidecodeChar_of_ascii (c : Char) (h : isAsciiChar c = true) :
    unidecodeChar c = [c] := by
  have h1 : c.toNat < 128 := by simpa [isAsciiChar] using h
  simp [unidecodeChar, h1]

/-- The transliterated text is all-ASCII, whatever the input. -/
theorem unidecodeList_ascii :
    ∀ (l : List Char) (d : Char), d ∈ unidecodeList l → isAsciiChar d = true := by
  intro l
  induction l with
  | nil => intro d hd; simp [unidecodeList] at hd
  | cons c r ih =>
    intro d hd
    rcases List.mem_append.mp hd with h | h
    · exact unidecodeChar_ascii c d h
    · exact ih d h

/-- Transliteration is the identity on all-ASCII text. -/
theorem unidecodeList_of_ascii :
    ∀ l : List Char, (∀ c ∈ l, isAsciiChar c = true) → unidecodeList l = l := by
  intro l
  induction l with
  | nil => intro _; rfl
  | cons c r ih =>
    intro h
    rw [unidecodeList, unidecodeChar_of_ascii c (h c (List.mem_cons_self _ _)),
      ih (fun d hd => h d (List.mem_cons_of_mem _ hd))]
    rfl

/-- `str.replace` is the identity when the needle does not occur. -/
theorem replaceChar_id (t : Char) (that : List Char) :
    ∀ l : List Char, (∀ c ∈ l, (c == t) = false) → replaceChar t that l = l := by
  intro l
  induction l with
  | nil => intro _; rfl
  | cons c r ih =>
    intro h
    simp [replaceChar, h c (List.mem_cons_self _ _),
      ih (fun d hd => h d (List.mem_cons_of_mem _ hd))]

/-- Replacing spaces by a single hyphen is a character-wise map. -/
theorem replaceChar_space (l : List Char) :
    replaceChar ' ' ['-'] l = l.map spaceHyphen := by
  induction l with
  | nil => rfl
  | cons c r ih =>
    by_cases hc : (c == ' ') = true
    · simp [replaceChar, hc, spaceHyphen, ih]
    · simp [replaceChar, hc, spaceHyphen, ih]

/-- An ASCII character is never `==` to a non-ASCII one. -/
theorem ascii_beq_false (c u : Char) (hu : isAsciiChar u = false)
    (hc : isAsciiChar c = true) : (c == u) = false := by
  rw [beq_eq_false_iff_ne]
  intro he
  rw [he] at hc
  rw [hc] at hu
  exact Bool.noConfusion hu

/-- `spaceHyphen` preserves ASCII-ness. -/
theorem mapSpace_ascii (l : List Char) (h : ∀ c ∈ l, isAsciiChar c = true) :
    ∀ c ∈ l.map spaceHyphen, isAsciiChar c = true := by
  intro c hc
  obtain ⟨a, ha, hac⟩ := List.mem_map.mp hc
  by_cases hsp : (a == ' ') = true
  · rw [← hac]
    simp only [spaceHyphen, if_pos hsp]
    decide
  · rw [← hac]
    simp only [spaceHyphen, if_neg hsp]
    exact h a ha

/-- On ASCII text the whole replacement chain is just space-to-hyphen: none
of the seven German special characters is ASCII. -/
theorem cleanReplace_of_ascii (l : List Char) (h : ∀ c ∈ l, isAsciiChar c = true) :
    cleanReplace l = l.map spaceHyphen := by
  have hm := mapSpace_ascii l h
  unfold cleanReplace
  rw [replaceChar_space]
  rw [replaceChar_id 'ä' _ _ (fun c hc => ascii_beq_false c 'ä' (by decide) (hm c hc))]
  rw [replaceChar_id 'Ä' _ _ (fun c hc => ascii_beq_false c 'Ä' (by decide) (hm c hc))]
  rw [replaceChar_id 'ö' _ _ (fun c hc => ascii_beq_false c 'ö' (by decide) (hm c hc))]
  rw [replaceChar_id 'Ö' _ _ (fun c hc => ascii_beq_false c 'Ö' (by decide) (hm c hc))]
  rw [replaceChar_id 'ü' _ _ (fun c hc => ascii_beq_false c 'ü' (by decide) (hm c hc))]
  rw [replaceChar_id 'Ü' _ _ (fun c hc => ascii_beq_false c 'Ü' (by decide) (hm c hc))]
  rw [replaceChar_id 'ß' _ _ (fun c hc => ascii_beq_false c 'ß' (by decide) (hm c hc))]

/-- The hyphenized text contains no space. -/
theorem mapSpace_no_space (l : List Char) : ' ' ∉ l.map spaceHyphen := by
  intro h
  obtain ⟨a, _, ha⟩ := List.mem_map.mp h
  by_cases hc : (a == ' ') = true
  · rw [spaceHyphen, if_pos hc] at ha
    exact absurd ha (by decide)
  · rw [spaceHyphen, if_neg hc] at ha
    rw [ha] at hc
    exact hc rfl

/-- Hyphenizing twice is the same as hyphenizing once. -/
theorem mapSpace_idem (l : List Char) :
    (l.map spaceHyphen).map spaceHyphen = l.map spaceHyphen := by
  induction l with
  | nil => rfl
  | cons c r ih =>
    simp only [List.map_cons, ih, List.cons.injEq, and_true]
    by_cases hc : (c == ' ') = true
    · simp [spaceHyphen, hc]
    · simp [spaceHyphen, hc]

/-- `spaceHyphen` fixes every non-whitespace character. -/
theorem spaceHyphen_of_nonspace (c : Char) (h : pyIsSpaceChar c = false) :
    spaceHyphen c = c := by
  have hc : (c == ' ') = false := by
    cases hcc : c == ' ' with
    | false => rfl
    | true =>
      have he : c = ' ' := by simpa using hcc
      rw [he] at h
      simp [pyIsSpaceChar] at h
  simp [spaceHyphen, hc]

/-- The stripped text starts with a non-whitespace character, if any. -/
theorem stripLeading_head : ∀ (l : List Char) (c : Char),
    (stripLeading l).head? = some c → pyIsSpaceChar c = false := by
  intro l
  induction l with
  | nil => intro c hc; simp [stripLeading] at hc
  | cons a r ih =>
    intro c hc
    by_cases ha : pyIsSpaceChar a = true
    · rw [show stripLeading (a :: r) = stripLeading r by simp [stripLeading, ha]] at hc
      exact ih c hc
    · rw [show stripLeading (a :: r) = a :: r by simp [stripLeading, ha]] at hc
      simp at hc
      rw [← hc]
      simpa using ha

/-- Stripping is the identity when the head is not whitespace. -/
theorem stripLeading_self (l : List Char)
    (h : ∀ c, l.head? = some c → pyIsSpaceChar c = false) : stripLeading l = l := by
  cases l with
  | nil => rfl
  | cons a r => simp [stripLeading, h a rfl]

/-- Stripping only removes characters. -/
theorem stripLeading_mem : ∀ (l : List Char) (c : Char), c ∈ stripLeading l → c ∈ l := by
  intro l
  induction l with
  | nil => intro c hc; simp [stripLeading] at hc
  | cons a r ih =>
    intro c hc
    by_cases ha : pyIsSpaceChar a = true
    · rw [show stripLeading (a :: r) = stripLeading r by simp [stripLeading, ha]] at hc
      exact List.mem_cons_of_mem a (ih c hc)
    · rwa [show stripLeading (a :: r) = a :: r by simp [stripLeading, ha]] at hc

/-- The stripped text is a suffix of the original. -/
theorem stripLeading_append : ∀ l : List Char, ∃ p, l = p ++ stripLeading l := by
  intro l
  induction l with
  | nil => exact ⟨[], rfl⟩
  | cons c r ih =>
    by_cases hc : pyIsSpaceChar c = true
    · obtain ⟨p, hp⟩ := ih
      refine ⟨c :: p, ?_⟩
      rw [show stripLeading (c :: r) = stripLeading r by simp [stripLeading, hc]]
      rw [List.cons_append]
      exact congrArg (c :: ·) hp
    · exact ⟨[], by simp [stripLeading, hc]⟩

/-- A nonempty head survives appending on the right. -/
theorem head_append_of_head (a b : List Char) (c : Char) (h : a.head? = some c) :
    (a ++ b).head? = some c := by
  cases a with
  | nil => simp at h
  | cons x r => simpa using h

/-- The fully stripped text, when nonempty, starts with a non-whitespace
character. -/
theorem pyStripList_head (l : List Char) (c : Char)
    (h : (pyStripList l).head? = some c) : pyIsSpaceChar c = false := by
  unfold pyStripList at h
  obtain ⟨p, hp⟩ := stripLeading_append ((stripLeading l).reverse)
  have hu : stripLeading l =
      (stripLeading ((stripLeading l).reverse)).reverse ++ p.reverse := by
    have h2 := congrArg List.reverse hp
    rw [List.reverse_reverse, List.reverse_append] at h2
    exact h2
  exact stripLeading_head l c (by rw [hu]; exact head_append_of_head _ _ _ h)

/-- The fully stripped text, when nonempty, ends with a non-whitespace
character. -/
theorem pyStripList_last (l : List Char) (c : Char)
    (h : (pyStripList l).reverse.head? = some c) : pyIsSpaceChar c = false := by
  unfold pyStripList at h
  rw [List.reverse_reverse] at h
  exact stripLeading_head _ c h

/-- Characters of the stripped text come from the original. -/
theorem pyStripList_subset (l : List Char) (c : Char) (h : c ∈ pyStripList l) :
    c ∈ l := by
  unfold pyStripList at h
  rw [List.mem_reverse] at h
  have h2 := stripLeading_mem _ _ h
  rw [List.mem_reverse] at h2
  exact stripLeading_mem _ _ h2

/-- Stripping fixes a text whose two ends are not whitespace. -/
theorem pyStripList_of_ends (l : List Char)
    (hh : ∀ c, l.head? = some c → pyIsSpaceChar c = false)
    (hl : ∀ c, l.reverse.head? = some c → pyIsSpaceChar c = false) :
    pyStripList l = l := by
  unfold pyStripList
  rw [stripLeading_self l hh, stripLeading_self l.reverse hl, List.reverse_reverse]

/-- On all-ASCII input, `clean_identifier` is strip followed by
space-to-hyphen. -/
theorem clean_ascii_eq (x : String) (hx : ∀ c ∈ x.data, isAsciiChar c = true) :
    clean_identifier x = ⟨(pyStripList x.data).map spaceHyphen⟩ := by
  have hz : ∀ c ∈ pyStripList x.data, isAsciiChar c = true :=
    fun c hc => hx c (pyStripList_subset _ c hc)
  unfold clean_identifier
  rw [cleanReplace_of_ascii _ hz, unidecodeList_of_ascii _ (mapSpace_ascii _ hz)]

/-- The ASCII output of `clean_identifier` is one of its fixed points. -/
theorem clean_fixed_point (l : List Char) (hl : ∀ c ∈ l, isAsciiChar c = true) :
    clean_identifier ⟨(pyStripList l).map spaceHyphen⟩ =
      ⟨(pyStripList l).map spaceHyphen⟩ := by
  have hz : ∀ c ∈ pyStripList l, isAsciiChar c = true :=
    fun c hc => hl c (pyStripList_subset _ c hc)
  have hy : ∀ c ∈ (pyStripList l).map spaceHyphen, isAsciiChar c = true :=
    mapSpace_ascii _ hz
  have hstr : pyStripList ((pyStripList l).map spaceHyphen) =
      (pyStripList l).map spaceHyphen := by
    apply pyStripList_of_ends
    · intro c hc
      rw [List.head?_map] at hc
      cases hz0 : (pyStripList l).head? with
      | none => rw [hz0] at hc; simp at hc
      | some c0 =>
        rw [hz0] at hc
        simp at hc
        rw [← hc, spaceHyphen_of_nonspace c0 (pyStripList_head l c0 hz0)]
        exact pyStripList_head l c0 hz0
    · intro c hc
      rw [← List.map_reverse, List.head?_map] at hc
      cases hz0 : (pyStripList l).reverse.head? with
      | none => rw [hz0] at hc; simp at hc
      | some c0 =>
        rw [hz0] at hc
        simp at hc
        rw [← hc, spaceHyphen_of_nonspace c0 (pyStripList_last l c0 hz0)]
        exact pyStripList_last l c0 hz0
  rw [clean_ascii_eq ⟨(pyStripList l).map spaceHyphen⟩ hy, hstr, mapSpace_idem]

/-! ### C5 -/

/-- Counterexample to C5: `unidecode` transliterates the CJK ideograph `北`
to `"Bei "` with a trailing space, so `clean_identifier` can output a string
containing a space, and applying it again strips that space — the function is
neither space-free nor idempotent on all inputs. -/
theorem clean_identifier_cjk_counterexample :
    clean_identifier "北" = "Bei " ∧
    ' ' ∈ (clean_identifier "北").data ∧
    clean_identifier (clean_identifier "北") ≠ clean_identifier "北" := by
  refine ⟨rfl, by decide, by decide⟩

/-- C5 as amended: the output of `clean_identifier` is always pure ASCII;
idempotence and space-freedom hold on every all-ASCII input (the
transliteration step can itself introduce spaces for non-ASCII input, which
is what breaks the unrestricted claim). -/
theorem clean_identifier_ascii_behavior :
    (∀ x : String, ∀ c ∈ (clean_identifier x).data, isAsciiChar c = true) ∧
    (∀ x : String, (∀ c ∈ x.data, isAsciiChar c = true) →
      clean_identifier (clean_identifier x) = clean_identifier x ∧
      ' ' ∉ (clean_identifier x).data) := by
  refine ⟨?_, ?_⟩
  · intro x c hc
    exact unidecodeList_ascii _ c hc
  · intro x hx
    have he := clean_ascii_eq x hx
    constructor
    · rw [he]
      exact clean_fixed_point x.data hx
    · rw [he]
      exact mapSpace_no_space _

/-- Witness for the amended C5, at the all-ASCII input `Balcony Plant`. -/
theorem clean_identifier_ascii_behavior_witness :
    clean_identifier (clean_identifier "Balcony Plant") =
      clean_identifier "Balcony Plant" ∧
    ' ' ∉ (clean_identifier "Balcony Plant").data :=
  clean_identifier_ascii_behavior.2 "Balcony Plant" (by decide)

/-! ### C7 -/

/-- Counterexample to C7: a key with two `@` characters does not split on the
first `@` — Python's `split('@')` returns three chunks and the two-name
unpacking raises an uncaught `ValueError`, instead of yielding name `a` and
location `b@c`. -/
theorem split_double_at_raises :
    splitNameLocation "a@b@c" = .error "ValueError: unpack" ∧
    splitNameLocation "a@b@c" ≠ .ok ("a", "b@c") := by
  refine ⟨rfl, ?_⟩
  intro hcontra
  rw [show splitNameLocation "a@b@c" = .error "ValueError: unpack" from rfl] at hcontra
  exact Except.noConfusion hcontra

/-- C7 as amended: a key with no `@` yields the whole key as name and the
empty location; a key with exactly one `@` yields the text before it as name
and the text after it as location; a key with two or more `@` characters
makes the loop raise an uncaught `ValueError` (fatal), not a first-`@`
split. -/
theorem split_name_location_cases :
    (∀ name : String, '@' ∉ name.data → splitNameLocation name = .ok (name, "")) ∧
    (∀ p q : List Char, '@' ∉ p → '@' ∉ q →
      splitNameLocation ⟨p ++ '@' :: q⟩ = .ok (⟨p⟩, ⟨q⟩)) ∧
    (∀ name : String, 2 ≤ name.data.count '@' →
      splitNameLocation name = .error "ValueError: unpack") := by
  refine ⟨?_, ?_, ?_⟩
  · intro name h
    unfold splitNameLocation
    rw [if_neg]
    intro hcont
    exact h (List.elem_iff.mp hcont)
  · intro p q hp hq
    have hc : (p ++ '@' :: q).contains '@' = true :=
      List.elem_iff.mpr (List.mem_append.mpr (Or.inr (List.mem_cons_self _ _)))
    have h1 := splitAux_first_sep '@' p q [] hp
    have h2 := splitAux_no_sep '@' q [] hq
    unfold splitNameLocation
    show (if (p ++ '@' :: q).contains '@' = true then
        unpack2 ((splitAux '@' (p ++ '@' :: q) []).map fun l => (⟨l⟩ : String))
      else .ok (⟨p ++ '@' :: q⟩, "")) = .ok (⟨p⟩, ⟨q⟩)
    rw [if_pos hc, h1, h2]
    simp [unpack2]
  · intro name h2
    have hmem : '@' ∈ name.data := List.count_pos_iff.mp (by omega)
    have hc : name.data.contains '@' = true := List.elem_iff.mpr hmem
    unfold splitNameLocation
    rw [if_pos hc]
    apply unpack2_error
    simp [pySplit, pySplitChars, splitAux_length]
    omega

/-- Witness for the amended C7, at the key `Plant@Room`. -/
theorem split_name_location_cases_witness :
    splitNameLocation ⟨"Plant".data ++ '@' :: "Room".data⟩ = .ok ("Plant", "Room") :=
  split_name_location_cases.2.1 "Plant".data "Room".data (by decide) (by decide)

/-! ### C1 -/

/-- C1: every completed cycle increments `count` by exactly one and exactly
one of `success` or `failure` by exactly one, preserving the invariant
`count = success + failure`; iterating cycles from line 152's zeroed
statistics, the invariant holds after every number of completed cycles, and
no counter is ever reset or decremented. -/
theorem cycle_stats_accounting :
    (∀ (outcome : Nat → Bool) (values : String → Int) (ts nm : String)
        (pubRaises : Bool) (fl fl2 : Flora)
        (r : Option (List (String × PyVal))) (msgs : List String),
        deviceCycle outcome values ts nm pubRaises fl = .ok (fl2, r, msgs) →
        fl2.stats.count = fl.stats.count + 1 ∧
        ((fl2.stats.success = fl.stats.success + 1 ∧
          fl2.stats.failure = fl.stats.failure) ∨
         (fl2.stats.success = fl.stats.success ∧
          fl2.stats.failure = fl.stats.failure + 1)) ∧
        (fl.stats.count = fl.stats.success + fl.stats.failure →
         fl2.stats.count = fl2.stats.success + fl2.stats.failure)) ∧
    (∀ (oks : Nat → Bool) (n : Nat),
        (runStats oks n).count = (runStats oks n).success + (runStats oks n).failure) := by
  constructor
  · intro outcome values ts nm pubRaises fl fl2 r msgs hEq
    have hstats := deviceCycle_stats outcome values ts nm pubRaises fl fl2 r msgs hEq
    rw [hstats]
    cases attemptLoop outcome 0 MAX_ATTEMPTS <;> simp [cycleStats] <;> omega
  · intro oks n
    induction n with
    | zero => rfl
    | succ n ih =>
      cases h : oks n <;> simp only [runStats, h, cycleStats] <;> simp <;> omega

/-- Witness for C1's per-cycle part, at a concrete failing cycle. -/
theorem cycle_stats_accounting_witness :
    floraAFail.stats.count = floraA.stats.count + 1 ∧
    ((floraAFail.stats.success = floraA.stats.success + 1 ∧
      floraAFail.stats.failure = floraA.stats.failure) ∨
     (floraAFail.stats.success = floraA.stats.success ∧
      floraAFail.stats.failure = floraA.stats.failure + 1)) ∧
    (floraA.stats.count = floraA.stats.success + floraA.stats.failure →
     floraAFail.stats.count = floraAFail.stats.success + floraAFail.stats.failure) :=
  cycle_stats_accounting.1 (fun _ => false) (fun _ => 0) "2024-01-01 00:00:00"
    "Balcony-Plant" false floraA floraAFail none [] rfl

/-! ### C6 -/

/-- C6 (code bug): the scheduler loop does not run forever — its very first
statement, `time.sleep(10)` at line 177, raises an uncaught `AttributeError`
because line 10's `from time import time, ...` rebinds the module-level name
`time` to the `time()` function, which has no `sleep` attribute.  The first
iteration therefore terminates the process before any device is processed,
whatever the registry and poller behaviour. -/
theorem polling_loop_attribute_error (outcome : Nat → Bool) (values : String → Int)
    (ts : String) (pubRaises : Bool) (devs : List (String × Flora)) :
    pollingLoopIteration outcome values ts pubRaises devs =
      .error "AttributeError: sleep" := rfl

/-! ### C9 -/

/-- C9 (code bug): the `--gen-openhab` branch at line 170 evaluates the name
`reporting_mode`, which no line of the module ever defines, so the mode
raises an uncaught `NameError` (nonzero exit) instead of emitting the items
artifact and exiting with code 0. -/
theorem gen_openhab_name_error :
    genOpenhabBranch = .error "NameError: reporting_mode" := rfl

/-! ### C10 -/

/-- C10 (code bug): for a device whose startup probe failed, no `firmware`
key is ever stored (line 157 swallows the exception without setting it), yet
the first successful cycle reads `flora['firmware']` at line 214, raising an
uncaught `KeyError`: building the reading does fail for such a device. -/
theorem missing_firmware_key_error :
    floraB.firmware = none ∧
    finishReading (fun _ => 0) "2024-01-01 00:00:00" "Hallway-Plant" floraB =
      .error "KeyError: firmware" := ⟨rfl, rfl⟩

/-! ### C8 -/

/-- Counterexample to C8: with a populated cache and a raising publisher, the
loop body evaluates to an uncaught exception — the process terminates instead
of logging and continuing with the next device. -/
theorem publish_failure_crash :
    deviceCycle (fun _ => true) (fun _ => 0) "2024-01-01 00:00:00"
        "Balcony-Plant" true floraA = .error "PublishError" := rfl

/-- C8 as amended: the publish call at line 226 is wrapped in no `try`, so
whenever it raises a transport error the exception propagates uncaught and
terminates the process; the reading is lost, nothing is logged and no retry
happens. -/
theorem publish_exception_uncaught (outcome : Nat → Bool) (values : String → Int)
    (ts nm : String) (fl : Flora) (fw : String)
    (hfw : fl.firmware = some fw)
    (hok : attemptLoop outcome 0 MAX_ATTEMPTS = true) :
    deviceCycle outcome values ts nm true fl = .error "PublishError" := by
  simp [deviceCycle, readCyclePhase, hok, finishReading, hfw, publishCall]

/-- Witness for the amended C8. -/
theorem publish_exception_uncaught_witness :
    deviceCycle (fun i => i == 1) (fun _ => 7) "2024-06-30 12:00:00"
        "Balcony-Plant" true floraA = .error "PublishError" :=
  publish_exception_uncaught (fun i => i == 1) (fun _ => 7) "2024-06-30 12:00:00"
    "Balcony-Plant" floraA "3.1.9" rfl rfl

end SensorProducer

